import Mathlib

/-!
Verification of the rule-based Kubernetes manifest scanner (`main.py`).

The scanner core (`check_config`, `scan_file`, `scan_directory`, `run_scan`)
is shallowly embedded here.  YAML documents parsed by `yaml.safe_load_all`
become values of the inductive type `Yaml`; the dynamic Python operations that
the code performs on them (`dict.get`, `in`, subscription, iteration,
truthiness, `==`, `str()`, `endswith`) become total Lean functions returning
`Except String _` where the Python operation can raise.  File I/O and the YAML
parser are external to the code under analysis: a file is modelled by the list
of documents the parser stream yields before failing, plus the optional
error that terminates it (`FileParse`), and a directory walk by the list of
file entries in traversal order.
-/

/-- A parsed YAML value, as produced by the Python function `yaml.safe_load`
(mappings restricted to string keys, as in Kubernetes manifests;
floats are not modelled). -/
inductive Yaml where
  | null : Yaml
  | bool : Bool → Yaml
  | int : Int → Yaml
  | str : String → Yaml
  | list : List Yaml → Yaml
  | map : List (String × Yaml) → Yaml

/-- First-match association lookup, the model of Python dict indexing
(parsed YAML mappings have unique keys). -/
def lookupStr (m : List (String × Yaml)) (k : String) : Option Yaml :=
  match m with
  | [] => none
  | (k2, v) :: rest => if k2 == k then some v else lookupStr rest k

mutual
/-- Python `==` restricted to the value shapes reachable in the scanner:
one operand is always a string or integer literal, so only the scalar
cases (including the Python equalities `False == 0` / `True == 1`) and elementwise
list equality are ever exercised. -/
def pyEq : Yaml → Yaml → Bool
  | Yaml.null, Yaml.null => true
  | Yaml.bool a, Yaml.bool b => a == b
  | Yaml.int a, Yaml.int b => a == b
  | Yaml.bool a, Yaml.int n => (if a then (1 : Int) else 0) == n
  | Yaml.int n, Yaml.bool b => n == (if b then (1 : Int) else 0)
  | Yaml.str a, Yaml.str b => a == b
  | Yaml.list a, Yaml.list b => pyEqL a b
  | Yaml.map a, Yaml.map b => pyEqM a b
  | _, _ => false

def pyEqL : List Yaml → List Yaml → Bool
  | [], [] => true
  | x :: xs, y :: ys => pyEq x y && pyEqL xs ys
  | _, _ => false

def pyEqM : List (String × Yaml) → List (String × Yaml) → Bool
  | [], [] => true
  | (k1, v1) :: xs, (k2, v2) :: ys => k1 == k2 && pyEq v1 v2 && pyEqM xs ys
  | _, _ => false
end

/-- Python truthiness (`if obj:`). -/
def pyTruthy : Yaml → Bool
  | Yaml.null => false
  | Yaml.bool b => b
  | Yaml.int n => n != 0
  | Yaml.str s => s != ""
  | Yaml.list l => !l.isEmpty
  | Yaml.map m => !m.isEmpty

/-- Python `v.get(k, d)`: defined on dicts, raises `AttributeError`
on every other value (including `None`). -/
def pyGet (v : Yaml) (k : String) (d : Yaml) : Except String Yaml :=
  match v with
  | Yaml.map m => Except.ok ((lookupStr m k).getD d)
  | _ => Except.error "AttributeError"

/-- Python `v[k]` for a string key: dict lookup, `KeyError` when the key is
missing, `TypeError` on non-dict values (string/list subscripts require
integers). -/
def pySub (v : Yaml) (k : String) : Except String Yaml :=
  match v with
  | Yaml.map m =>
      match lookupStr m k with
      | some x => Except.ok x
      | none => Except.error "KeyError"
  | _ => Except.error "TypeError"

/-- Substring test on character lists, the model of Python
`needle in haystack` for strings. -/
def listContainsSub (need : List Char) : List Char → Bool
  | [] => need.isEmpty
  | c :: t => need.isPrefixOf (c :: t) || listContainsSub need t

/-- Membership of one element in a Python list, elementwise `==`. -/
def pyInList (x : Yaml) (l : List Yaml) : Bool :=
  l.any (fun e => pyEq x e)

/-- Python `x in container`: list membership, dict key membership,
substring test on strings; `TypeError` on non-container values. -/
def pyIn (x container : Yaml) : Except String Bool :=
  match container with
  | Yaml.list l => Except.ok (pyInList x l)
  | Yaml.map m => Except.ok (m.any (fun kv => pyEq x (Yaml.str kv.1)))
  | Yaml.str s =>
      match x with
      | Yaml.str t => Except.ok (listContainsSub t.data s.data)
      | _ => Except.error "TypeError"
  | _ => Except.error "TypeError"

/-- Python `v.endswith(suffix)`: defined on strings only. -/
def pyEndswith (v : Yaml) (suffix : String) : Except String Bool :=
  match v with
  | Yaml.str s => Except.ok (suffix.data.isSuffixOf s.data)
  | _ => Except.error "AttributeError"

/-- Python iteration `for x in v`: lists yield elements, strings yield
one-character strings, dicts yield their keys; `TypeError` otherwise. -/
def pyIter (v : Yaml) : Except String (List Yaml) :=
  match v with
  | Yaml.list l => Except.ok l
  | Yaml.str s => Except.ok (s.data.map (fun ch => Yaml.str (String.mk [ch])))
  | Yaml.map m => Except.ok (m.map (fun kv => Yaml.str kv.1))
  | _ => Except.error "TypeError"

mutual
/-- Python `str()` as used by f-string interpolation (string escaping inside
nested `repr` is not modelled; no scanner rule depends on it). -/
def pyStr : Yaml → String
  | Yaml.str s => s
  | Yaml.int n => toString n
  | Yaml.bool b => if b then "True" else "False"
  | Yaml.null => "None"
  | Yaml.list l => "[" ++ String.intercalate ", " (pyReprL l) ++ "]"
  | Yaml.map m => "\x7b" ++ String.intercalate ", " (pyReprM m) ++ "\x7d"

/-- Python `repr()`, used for elements of interpolated containers. -/
def pyRepr : Yaml → String
  | Yaml.str s => "\x27" ++ s ++ "\x27"
  | Yaml.int n => toString n
  | Yaml.bool b => if b then "True" else "False"
  | Yaml.null => "None"
  | Yaml.list l => "[" ++ String.intercalate ", " (pyReprL l) ++ "]"
  | Yaml.map m => "\x7b" ++ String.intercalate ", " (pyReprM m) ++ "\x7d"

def pyReprL : List Yaml → List String
  | [] => []
  | x :: xs => pyRepr x :: pyReprL xs

def pyReprM : List (String × Yaml) → List String
  | [] => []
  | (k, v) :: xs => ("\x27" ++ k ++ "\x27: " ++ pyRepr v) :: pyReprM xs
end

mutual
/-- Rendering of one YAML value for `yaml.dump` (modelled in flow style;
the scanner only ever compares which value was dumped, never the
serialization format itself). -/
def yamlDumpV : Yaml → String
  | Yaml.str s => s
  | Yaml.int n => toString n
  | Yaml.bool b => if b then "true" else "false"
  | Yaml.null => "null"
  | Yaml.list l => "[" ++ String.intercalate ", " (yamlDumpL l) ++ "]"
  | Yaml.map m => "\x7b" ++ String.intercalate ", " (yamlDumpM m) ++ "\x7d"

def yamlDumpL : List Yaml → List String
  | [] => []
  | x :: xs => yamlDumpV x :: yamlDumpL xs

def yamlDumpM : List (String × Yaml) → List String
  | [] => []
  | (k, v) :: xs => (k ++ ": " ++ yamlDumpV v) :: yamlDumpM xs
end

/-- Model of `yaml.dump(v)`: the rendered value followed by the trailing
newline PyYAML always emits. -/
def yamlDump (v : Yaml) : String :=
  yamlDumpV v ++ "\n"

/-- One issue record appended by the scanner: a dict with keys
severity / message / snippet. -/
structure Finding where
  severity : String
  message : String
  snippet : String
deriving DecidableEq, Repr

/-- Message of a container-level finding: the Python f-string interpolating
the file path, the kind, the metadata name, the container name and the rule
tail.  Grouped so that the literal tail (apostrophe, space, rule text) is the
second operand of the outermost append. -/
def fmtContainerMsg (p : String) (kind mname name : Yaml) (tail : String) : String :=
  (p ++ " [" ++ pyStr kind ++ "/" ++ pyStr mname ++ "] Container \x27" ++ pyStr name) ++
    ("\x27 " ++ tail)

/-- The conditional `issues.append({...})` pattern shared by the four
container rules: when the guard holds, the f-string evaluates
the metadata name lookup (which raises on non-dict metadata) and one
finding is appended; otherwise nothing happens. -/
def condFinding (b : Bool) (metadata : Yaml) (mk : Yaml → Finding) :
    Except String (List Finding) :=
  if b then do
    let mn ← pyGet metadata "name" (Yaml.str "")
    pure [mk mn]
  else pure []

/-- The per-container rule pass of `check_config` (`main.py` lines 28-67):
rules 1-4 in source order, sharing `name`, `resources`, `securityContext`
and `image` exactly as the code reads them. -/
def check_container (p : String) (kind metadata c : Yaml) :
    Except String (List Finding) := do
  let name ← pyGet c "name" (Yaml.str "unknown-container")
  let resources ← pyGet c "resources" (Yaml.map [])
  let missing ← (do
    let hasLim ← pyIn (Yaml.str "limits") resources
    if hasLim then do
      let hasReq ← pyIn (Yaml.str "requests") resources
      pure (!hasReq)
    else pure true)
  let f1 ← condFinding missing metadata (fun mn =>
    Finding.mk "Medium"
      (fmtContainerMsg p kind mn name "missing resource requests/limits")
      (yamlDump c))
  let security ← pyGet c "securityContext" (Yaml.map [])
  let priv ← pyGet security "privileged" (Yaml.bool false)
  let f2 ← condFinding (pyTruthy priv) metadata (fun mn =>
    Finding.mk "High"
      (fmtContainerMsg p kind mn name "runs as privileged")
      (yamlDump c))
  let rau ← pyGet security "runAsUser" (Yaml.int 0)
  let f3 ← condFinding (pyEq rau (Yaml.int 0)) metadata (fun mn =>
    Finding.mk "High"
      (fmtContainerMsg p kind mn name "runs as root user")
      (yamlDump c))
  let image ← pyGet c "image" (Yaml.str "")
  let tag ← (do
    let hasLatest ← pyIn (Yaml.str ":latest") image
    if hasLatest then pure true else pyEndswith image ":")
  let f4 ← condFinding tag metadata (fun mn =>
    Finding.mk "Low"
      (fmtContainerMsg p kind mn name "uses \x27latest\x27 image tag")
      (yamlDump c))
  pure (f1 ++ f2 ++ f3 ++ f4)

/-- Loop `for c in containers:` — the container loop of `check_config`. -/
def check_containers (p : String) (kind metadata : Yaml) :
    List Yaml → Except String (List Finding)
  | [] => pure []
  | c :: rest => do
    let here ← check_container p kind metadata c
    let further ← check_containers p kind metadata rest
    pure (here ++ further)

/-- Container-list extraction of `check_config` (`main.py` lines 22-26):
`spec.containers` when that key is present, else
`spec.template.spec.containers`, else the empty list. -/
def containersOf (spec : Yaml) : Except String Yaml := do
  let hasC ← pyIn (Yaml.str "containers") spec
  if hasC then pySub spec "containers"
  else do
    let hasT ← pyIn (Yaml.str "template") spec
    if hasT then do
      let tmpl ← pySub spec "template"
      let hasS ← pyIn (Yaml.str "spec") tmpl
      if hasS then do
        let tsp ← pySub tmpl "spec"
        pyGet tsp "containers" (Yaml.list [])
      else pure (Yaml.list [])
    else pure (Yaml.list [])

/-- Rule 5 (`main.py` lines 69-76): Service without a namespace. -/
def serviceNamespaceIssues (p : String) (kind metadata obj : Yaml) :
    Except String (List Finding) :=
  if pyEq kind (Yaml.str "Service") then do
    let hasNs ← pyIn (Yaml.str "namespace") metadata
    if hasNs then pure []
    else do
      let mn ← pyGet metadata "name" (Yaml.str "")
      pure [Finding.mk "Low"
        (p ++ " [Service/" ++ pyStr mn ++ "] has no namespace specified")
        (yamlDump obj)]
  else pure []

/-- Rule 6 (`main.py` lines 78-87): Service external exposure. -/
def serviceTypeIssues (p : String) (kind metadata spec obj : Yaml) :
    Except String (List Finding) :=
  if pyEq kind (Yaml.str "Service") then do
    let svcType ← pyGet spec "type" (Yaml.str "ClusterIP")
    if pyInList svcType [Yaml.str "LoadBalancer", Yaml.str "NodePort"] then do
      let mn ← pyGet metadata "name" (Yaml.str "")
      pure [Finding.mk "High"
        (p ++ " [Service/" ++ pyStr mn ++ "] uses " ++ pyStr svcType ++
          ", which may expose workloads externally")
        (yamlDump obj)]
    else pure []
  else pure []

/-- Body of the RBAC loop (`main.py` lines 91-101), one iteration per
entry of `spec.rules`. -/
def rbacRuleIssues (p : String) (kind metadata : Yaml) :
    List Yaml → Except String (List Finding)
  | [] => pure []
  | r :: rest => do
    let verbs ← pyGet r "verbs" (Yaml.list [])
    let resources ← pyGet r "resources" (Yaml.list [])
    let star ← (do
      let a ← pyIn (Yaml.str "*") verbs
      if a then pure true else pyIn (Yaml.str "*") resources)
    let here ← condFinding star metadata (fun mn =>
      Finding.mk "High"
        (p ++ " [" ++ pyStr kind ++ "/" ++ pyStr mn ++
          "] has overly permissive RBAC rule: verbs=" ++ pyStr verbs ++
          ", resources=" ++ pyStr resources)
        (yamlDump r))
    let further ← rbacRuleIssues p kind metadata rest
    pure (here ++ further)

/-- Rule 7 (`main.py` lines 89-101): overly permissive RBAC. -/
def rbacIssues (p : String) (kind metadata spec : Yaml) :
    Except String (List Finding) :=
  if pyInList kind [Yaml.str "Role", Yaml.str "ClusterRole"] then do
    let rules ← pyGet spec "rules" (Yaml.list [])
    let rs ← pyIter rules
    rbacRuleIssues p kind metadata rs
  else pure []

/-- Model of `check_config(obj, file_path)` (`main.py` lines 15-103): the full
rule pass over one parsed document.  A raised Python exception is an
`Except.error`; the caller `scan_file` catches it. -/
def check_config (obj : Yaml) (file_path : String) :
    Except String (List Finding) := do
  let kind ← pyGet obj "kind" (Yaml.str "Unknown")
  let metadata ← pyGet obj "metadata" (Yaml.map [])
  let spec ← pyGet obj "spec" (Yaml.map [])
  let containers ← containersOf spec
  let cs ← pyIter containers
  let cIssues ← check_containers file_path kind metadata cs
  let nsIssues ← serviceNamespaceIssues file_path kind metadata obj
  let tIssues ← serviceTypeIssues file_path kind metadata spec obj
  let rIssues ← rbacIssues file_path kind metadata spec
  pure (cIssues ++ nsIssues ++ tIssues ++ rIssues)

/-- What iterating `yaml.safe_load_all` over the bytes of one file yields:
the documents produced before the stream ends or fails, and the error
(as its `str()`) if parsing or opening fails.  A fully parsed file has
`err = none`; a file that fails to open or whose first document is
malformed has `docs = []`. -/
structure FileParse where
  docs : List Yaml
  err : Option String

/-- The finding built in the `except` branch of `scan_file`
(`main.py` lines 161-168). -/
def errFinding (p e : String) : Finding :=
  Finding.mk "Low" ("Error parsing " ++ p ++ ": " ++ e) ""

/-- The document loop of `scan_file`: truthy documents are scanned, falsy
ones skipped; the first exception (from the lazy parser via the next
document, or from `check_config` itself) stops the loop, discarding only
the partial issue list of the failing document. -/
def scanDocs (p : String) : List Yaml → List Finding × Option String
  | [] => ([], none)
  | d :: rest =>
    if pyTruthy d then
      match check_config d p with
      | Except.error e => ([], some e)
      | Except.ok issues =>
        let r := scanDocs p rest
        (issues ++ r.1, r.2)
    else scanDocs p rest

/-- Model of `scan_file(file_path)` (`main.py` lines 152-169): scan every document,
converting the first raised exception into a single appended
`"Error parsing ..."` finding. -/
def scan_file (p : String) (fp : FileParse) : List Finding :=
  match (scanDocs p fp.docs).2 with
  | some e => (scanDocs p fp.docs).1 ++ [errFinding p e]
  | none =>
    match fp.err with
    | some e => (scanDocs p fp.docs).1 ++ [errFinding p e]
    | none => (scanDocs p fp.docs).1

/-- One file met by the `os.walk` traversal, in walk order. -/
structure FileEntry where
  path : String
  parse : FileParse

/-- Python `file.endswith((".yml", ".yaml"))`. -/
def isYamlFile (name : String) : Bool :=
  ".yml".data.isSuffixOf name.data || ".yaml".data.isSuffixOf name.data

/-- Model of `scan_directory(path)` (`main.py` lines 172-180) over the walked
file list. -/
def scan_directory : List FileEntry → List Finding
  | [] => []
  | f :: rest =>
    (if isYamlFile f.path then scan_file f.path f.parse else []) ++
      scan_directory rest

/-- What `os.path.isdir` dispatches on in `run_scan`: the parse outcome of
a single file, or the walked file list of a directory. -/
inductive PathInput where
  | file : String → FileParse → PathInput
  | dir : List FileEntry → PathInput

/-- Model of `run_scan(path)` (`main.py` lines 183-188). -/
def run_scan : PathInput → List Finding
  | PathInput.file p fp => scan_file p fp
  | PathInput.dir entries => scan_directory entries

/-! ### Helper lemmas about the embedding -/

/-- Asserts that `t` is a suffix of the string `s`. -/
def strEnds (s t : String) : Prop :=
  t.data <:+ s.data

/-- Asserts that `t` is a prefix of the string `s`. -/
def strStarts (s t : String) : Prop :=
  t.data <+: s.data

instance (s t : String) : Decidable (strEnds s t) := by
  unfold strEnds; infer_instance

instance (s t : String) : Decidable (strStarts s t) := by
  unfold strStarts; infer_instance

theorem exceptPure_eq {α : Type} (x : α) :
    (pure x : Except String α) = Except.ok x := rfl

theorem exceptBind_ok {α β : Type} {e : Except String α}
    {f : α → Except String β} {b : β} :
    (e >>= f = Except.ok b) ↔ ∃ a, e = Except.ok a ∧ f a = Except.ok b := by
  cases e <;> simp [Bind.bind, Except.bind]

theorem exceptBind_ok_reduce {α β : Type} (a : α) (f : α → Except String β) :
    (Except.ok a >>= f : Except String β) = f a := rfl

theorem strEnds_append (a b : String) : strEnds (a ++ b) b := by
  unfold strEnds
  rw [String.data_append]
  exact List.suffix_append a.data b.data

theorem strStarts_rfl (a : String) : strStarts a a := by
  unfold strStarts
  exact List.prefix_rfl

theorem strStarts_append_right {a t : String} (b : String) (h : strStarts a t) :
    strStarts (a ++ b) t := by
  unfold strStarts at *
  rw [String.data_append]
  exact h.trans (List.prefix_append a.data b.data)

theorem fmtContainerMsg_suffix (p : String) (kind mn name : Yaml) (tail : String) :
    strEnds (fmtContainerMsg p kind mn name tail) ("\x27 " ++ tail) := by
  unfold fmtContainerMsg
  exact strEnds_append _ _

theorem fmtContainerMsg_starts (p : String) (kind mn name : Yaml) (tail : String) :
    strStarts (fmtContainerMsg p kind mn name tail) p := by
  unfold fmtContainerMsg
  apply strStarts_append_right
  apply strStarts_append_right
  apply strStarts_append_right
  apply strStarts_append_right
  apply strStarts_append_right
  apply strStarts_append_right
  apply strStarts_append_right
  exact strStarts_rfl p

/-- Two suffixes of one string are comparable; concrete incomparable pairs
therefore cannot both be suffixes. -/
theorem strEnds_incompatible {m a b : String} (ha : strEnds m a) (hb : strEnds m b)
    (hab : ¬ a.data <:+ b.data) (hba : ¬ b.data <:+ a.data) : False := by
  rcases List.suffix_or_suffix_of_suffix ha hb with h | h
  · exact hab h
  · exact hba h

theorem yamlDump_ne_empty (v : Yaml) : yamlDump v ≠ "" := by
  intro h
  have hd := congrArg String.data h
  rw [yamlDump, String.data_append] at hd
  simp at hd

theorem condFinding_ok {b : Bool} {md : Yaml} {mk : Yaml → Finding}
    {out : List Finding} (h : condFinding b md mk = Except.ok out) :
    out = [] ∨ ∃ mn, b = true ∧ pyGet md "name" (Yaml.str "") = Except.ok mn ∧
      out = [mk mn] := by
  unfold condFinding at h
  cases b with
  | false =>
    left
    simp [exceptPure_eq] at h
    exact h
  | true =>
    right
    cases hg : pyGet md "name" (Yaml.str "") with
    | error e => rw [hg] at h; simp [Bind.bind, Except.bind] at h
    | ok mn =>
      refine ⟨mn, rfl, rfl, ?_⟩
      rw [hg] at h
      simp [Bind.bind, Except.bind, exceptPure_eq] at h
      exact h.symm

theorem condFinding_true {md : Yaml} {mn : Yaml} (mk : Yaml → Finding)
    (hg : pyGet md "name" (Yaml.str "") = Except.ok mn) :
    condFinding true md mk = Except.ok [mk mn] := by
  unfold condFinding
  rw [if_pos rfl, hg]
  rfl

theorem condFinding_false {md : Yaml} (mk : Yaml → Finding) :
    condFinding false md mk = Except.ok [] := rfl

theorem pureOk {α : Type} {a b : α}
    (h : (pure a : Except String α) = Except.ok b) : a = b := by
  have h2 : Except.ok a = Except.ok b := h
  injection h2

/-- Every finding the per-container rule pass emits carries the dumped
container as snippet, starts its message with the source path, and is one
of the four rule findings, recognisable by severity and message tail. -/
theorem check_container_shape {p : String} {kind metadata c : Yaml}
    {fs : List Finding} (h : check_container p kind metadata c = Except.ok fs) :
    ∀ f ∈ fs, f.snippet = yamlDump c ∧ strStarts f.message p ∧
      ((f.severity = "Medium" ∧ strEnds f.message "\x27 missing resource requests/limits") ∨
       (f.severity = "High" ∧ strEnds f.message "\x27 runs as privileged") ∨
       (f.severity = "High" ∧ strEnds f.message "\x27 runs as root user") ∨
       (f.severity = "Low" ∧ strEnds f.message "\x27 uses \x27latest\x27 image tag")) := by
  intro f hf
  unfold check_container at h
  simp only [exceptBind_ok, exceptPure_eq, Except.ok.injEq] at h
  obtain ⟨name, hname, resources, hres, missing, hmiss, f1, hf1, security, hsec,
    priv, hpriv, f2, hf2, rau, hrau, f3, hf3, image, himg, tag, htag, f4, hf4, hfs⟩ := h
  subst hfs
  simp only [List.mem_append] at hf
  rcases hf with ((hf | hf) | hf) | hf
  · rcases condFinding_ok hf1 with h1 | ⟨mn, _, _, h1⟩ <;> subst h1
    · simp at hf
    · simp only [List.mem_singleton] at hf
      subst hf
      refine ⟨rfl, fmtContainerMsg_starts p kind mn name _, Or.inl ⟨rfl, ?_⟩⟩
      exact fmtContainerMsg_suffix p kind mn name "missing resource requests/limits"
  · rcases condFinding_ok hf2 with h2 | ⟨mn, _, _, h2⟩ <;> subst h2
    · simp at hf
    · simp only [List.mem_singleton] at hf
      subst hf
      refine ⟨rfl, fmtContainerMsg_starts p kind mn name _, Or.inr (Or.inl ⟨rfl, ?_⟩)⟩
      exact fmtContainerMsg_suffix p kind mn name "runs as privileged"
  · rcases condFinding_ok hf3 with h3 | ⟨mn, _, _, h3⟩ <;> subst h3
    · simp at hf
    · simp only [List.mem_singleton] at hf
      subst hf
      refine ⟨rfl, fmtContainerMsg_starts p kind mn name _, Or.inr (Or.inr (Or.inl ⟨rfl, ?_⟩))⟩
      exact fmtContainerMsg_suffix p kind mn name "runs as root user"
  · rcases condFinding_ok hf4 with h4 | ⟨mn, _, _, h4⟩ <;> subst h4
    · simp at hf
    · simp only [List.mem_singleton] at hf
      subst hf
      refine ⟨rfl, fmtContainerMsg_starts p kind mn name _, Or.inr (Or.inr (Or.inr ⟨rfl, ?_⟩))⟩
      exact fmtContainerMsg_suffix p kind mn name "uses \x27latest\x27 image tag"

/-- Lift of `check_container_shape` over the container loop. -/
theorem check_containers_shape {p : String} {kind metadata : Yaml}
    {cs : List Yaml} {fs : List Finding}
    (h : check_containers p kind metadata cs = Except.ok fs) :
    ∀ f ∈ fs, (∃ c ∈ cs, f.snippet = yamlDump c) ∧ strStarts f.message p ∧
      ((f.severity = "Medium" ∧ strEnds f.message "\x27 missing resource requests/limits") ∨
       (f.severity = "High" ∧ strEnds f.message "\x27 runs as privileged") ∨
       (f.severity = "High" ∧ strEnds f.message "\x27 runs as root user") ∨
       (f.severity = "Low" ∧ strEnds f.message "\x27 uses \x27latest\x27 image tag")) := by
  induction cs generalizing fs with
  | nil =>
    simp only [check_containers, exceptPure_eq, Except.ok.injEq] at h
    subst h
    intro f hf
    simp at hf
  | cons c rest ih =>
    simp only [check_containers, exceptBind_ok, exceptPure_eq, Except.ok.injEq] at h
    obtain ⟨here, hhere, further, hfurther, hfs⟩ := h
    subst hfs
    intro f hf
    rcases List.mem_append.mp hf with hf | hf
    · obtain ⟨h1, h2, h3⟩ := check_container_shape hhere f hf
      exact ⟨⟨c, List.mem_cons_self c rest, h1⟩, h2, h3⟩
    · obtain ⟨⟨c2, hc2, h1⟩, h2, h3⟩ := ih hfurther f hf
      exact ⟨⟨c2, List.mem_cons_of_mem c hc2, h1⟩, h2, h3⟩

/-- Characterisation of the output of rule 5. -/
theorem serviceNamespaceIssues_ok {p : String} {kind metadata obj : Yaml}
    {out : List Finding}
    (h : serviceNamespaceIssues p kind metadata obj = Except.ok out) :
    out = [] ∨ ∃ mn, out = [Finding.mk "Low"
      (p ++ " [Service/" ++ pyStr mn ++ "] has no namespace specified")
      (yamlDump obj)] := by
  unfold serviceNamespaceIssues at h
  by_cases hk : pyEq kind (Yaml.str "Service")
  · rw [if_pos hk] at h
    simp only [exceptBind_ok, exceptPure_eq, Except.ok.injEq] at h
    obtain ⟨hasNs, _, h⟩ := h
    cases hasNs with
    | true => left; exact (pureOk h).symm
    | false =>
      right
      rw [if_neg Bool.false_ne_true] at h
      simp only [exceptBind_ok, exceptPure_eq, Except.ok.injEq] at h
      obtain ⟨mn, _, h⟩ := h
      exact ⟨mn, h.symm⟩
  · rw [if_neg hk] at h
    left
    exact (pureOk h).symm

/-- Characterisation of the output of rule 6. -/
theorem serviceTypeIssues_ok {p : String} {kind metadata spec obj : Yaml}
    {out : List Finding}
    (h : serviceTypeIssues p kind metadata spec obj = Except.ok out) :
    out = [] ∨ (pyEq kind (Yaml.str "Service") = true ∧
      ∃ t mn, pyGet spec "type" (Yaml.str "ClusterIP") = Except.ok t ∧
        pyInList t [Yaml.str "LoadBalancer", Yaml.str "NodePort"] = true ∧
        out = [Finding.mk "High"
          (p ++ " [Service/" ++ pyStr mn ++ "] uses " ++ pyStr t ++
            ", which may expose workloads externally")
          (yamlDump obj)]) := by
  unfold serviceTypeIssues at h
  by_cases hk : pyEq kind (Yaml.str "Service")
  · rw [if_pos hk] at h
    simp only [exceptBind_ok, exceptPure_eq, Except.ok.injEq] at h
    obtain ⟨t, ht, h⟩ := h
    by_cases hg : pyInList t [Yaml.str "LoadBalancer", Yaml.str "NodePort"]
    · rw [if_pos hg] at h
      simp only [exceptBind_ok, exceptPure_eq, Except.ok.injEq] at h
      obtain ⟨mn, hmn, h⟩ := h
      exact Or.inr ⟨hk, t, mn, ht, hg, h.symm⟩
    · rw [if_neg hg] at h
      left
      exact (pureOk h).symm
  · rw [if_neg hk] at h
    left
    exact (pureOk h).symm

/-- Rule 6 fires exactly when the (defaulted) service type is LoadBalancer
or NodePort. -/
theorem serviceTypeIssues_fires {p : String} {kind metadata spec obj : Yaml}
    {t mn : Yaml}
    (hk : pyEq kind (Yaml.str "Service") = true)
    (ht : pyGet spec "type" (Yaml.str "ClusterIP") = Except.ok t)
    (hg : pyInList t [Yaml.str "LoadBalancer", Yaml.str "NodePort"] = true)
    (hmn : pyGet metadata "name" (Yaml.str "") = Except.ok mn) :
    serviceTypeIssues p kind metadata spec obj = Except.ok
      [Finding.mk "High"
        (p ++ " [Service/" ++ pyStr mn ++ "] uses " ++ pyStr t ++
          ", which may expose workloads externally")
        (yamlDump obj)] := by
  unfold serviceTypeIssues
  rw [if_pos hk, ht]
  simp only [Bind.bind, Except.bind]
  rw [if_pos hg, hmn]
  simp only [Bind.bind, Except.bind]
  rfl

/-- Rule 6 stays silent when the (defaulted) service type is neither
LoadBalancer nor NodePort. -/
theorem serviceTypeIssues_silent {p : String} {kind metadata spec obj : Yaml}
    {t : Yaml}
    (ht : pyGet spec "type" (Yaml.str "ClusterIP") = Except.ok t)
    (hg : pyInList t [Yaml.str "LoadBalancer", Yaml.str "NodePort"] = false) :
    serviceTypeIssues p kind metadata spec obj = Except.ok [] := by
  unfold serviceTypeIssues
  by_cases hk : pyEq kind (Yaml.str "Service")
  · rw [if_pos hk, ht]
    simp only [Bind.bind, Except.bind]
    rw [if_neg (by simp [hg])]
    rfl
  · rw [if_neg hk]
    rfl

/-- Extract an `Except` result, with a default for the error case
(reachable only outside the error-free situations it is used in). -/
def exceptD {α : Type} (d : α) : Except String α → α
  | Except.ok a => a
  | Except.error _ => d

/-- The `verbs` field interpolated into the message of a rule entry
(`rule.get("verbs", [])`), totalised for use outside the monad. -/
def ruleVerbs (r : Yaml) : Yaml :=
  exceptD (Yaml.list []) (pyGet r "verbs" (Yaml.list []))

/-- The `resources` field interpolated into the message of a rule entry. -/
def ruleResources (r : Yaml) : Yaml :=
  exceptD (Yaml.list []) (pyGet r "resources" (Yaml.list []))

/-- Whether one RBAC rule entry trips rule 7:
`"*" in rule.get("verbs", []) or "*" in rule.get("resources", [])`. -/
def ruleHasStar (r : Yaml) : Bool :=
  exceptD false (do
    let verbs ← pyGet r "verbs" (Yaml.list [])
    let _resources ← pyGet r "resources" (Yaml.list [])
    let a ← pyIn (Yaml.str "*") verbs
    if a then pure true else pyIn (Yaml.str "*") _resources)

/-- The finding rule 7 appends for one tripping rule entry. -/
def mkRbacFinding (p : String) (kind mn r : Yaml) : Finding :=
  Finding.mk "High"
    (p ++ " [" ++ pyStr kind ++ "/" ++ pyStr mn ++
      "] has overly permissive RBAC rule: verbs=" ++ pyStr (ruleVerbs r) ++
      ", resources=" ++ pyStr (ruleResources r))
    (yamlDump r)

/-- The RBAC loop emits exactly one finding per tripping rule entry, built
from that entry, in entry order. -/
theorem rbacRuleIssues_eq {p : String} {kind metadata mn : Yaml}
    {rs : List Yaml} {out : List Finding}
    (hmn : pyGet metadata "name" (Yaml.str "") = Except.ok mn)
    (h : rbacRuleIssues p kind metadata rs = Except.ok out) :
    out = (rs.filter ruleHasStar).map (mkRbacFinding p kind mn) := by
  induction rs generalizing out with
  | nil =>
    simp only [rbacRuleIssues] at h
    simp [(pureOk h).symm]
  | cons r rest ih =>
    unfold rbacRuleIssues at h
    obtain ⟨verbs, hv, h⟩ := exceptBind_ok.mp h
    obtain ⟨resources, hres, h⟩ := exceptBind_ok.mp h
    obtain ⟨star, hstar, h⟩ := exceptBind_ok.mp h
    obtain ⟨here, hhere, h⟩ := exceptBind_ok.mp h
    obtain ⟨further, hfurther, h⟩ := exceptBind_ok.mp h
    have hout := pureOk h
    have hrestar : ruleHasStar r = star := by
      unfold ruleHasStar
      rw [hv]
      simp only [exceptBind_ok_reduce]
      rw [hres]
      simp only [exceptBind_ok_reduce]
      rw [hstar]
      rfl
    have hverbs : ruleVerbs r = verbs := by unfold ruleVerbs; rw [hv]; rfl
    have hresources : ruleResources r = resources := by
      unfold ruleResources; rw [hres]; rfl
    subst hout
    rw [ih hfurther, List.filter_cons]
    rcases Bool.eq_false_or_eq_true star with hb | hb
    · rw [hb] at hrestar
      rw [hb, condFinding_true _ hmn] at hhere
      injection hhere with hhere
      rw [if_pos hrestar]
      rw [← hhere, List.map_cons]
      unfold mkRbacFinding
      rw [hverbs, hresources]
      rfl
    · rw [hb] at hrestar
      rw [hb, condFinding_false] at hhere
      injection hhere with hhere
      rw [if_neg (by rw [hrestar]; exact Bool.false_ne_true)]
      rw [← hhere]
      simp

/-- Every finding of the RBAC loop is High, path-prefixed, and carries the
dump of some rule entry as snippet. -/
theorem rbacRuleIssues_shape {p : String} {kind metadata : Yaml}
    {rs : List Yaml} {out : List Finding}
    (h : rbacRuleIssues p kind metadata rs = Except.ok out) :
    ∀ f ∈ out, f.severity = "High" ∧ strStarts f.message p ∧
      ∃ r ∈ rs, f.snippet = yamlDump r := by
  induction rs generalizing out with
  | nil =>
    simp only [rbacRuleIssues] at h
    rw [← pureOk h]
    intro f hf
    simp at hf
  | cons r rest ih =>
    unfold rbacRuleIssues at h
    obtain ⟨verbs, hv, h⟩ := exceptBind_ok.mp h
    obtain ⟨resources, hres, h⟩ := exceptBind_ok.mp h
    obtain ⟨star, hstar, h⟩ := exceptBind_ok.mp h
    obtain ⟨here, hhere, h⟩ := exceptBind_ok.mp h
    obtain ⟨further, hfurther, h⟩ := exceptBind_ok.mp h
    rw [← pureOk h]
    intro f hf
    rcases List.mem_append.mp hf with hf | hf
    · rcases condFinding_ok hhere with h1 | ⟨mn, _, _, h1⟩ <;> subst h1
      · simp at hf
      · simp only [List.mem_singleton] at hf
        subst hf
        refine ⟨rfl, ?_, r, List.mem_cons_self r rest, rfl⟩
        apply strStarts_append_right
        apply strStarts_append_right
        apply strStarts_append_right
        apply strStarts_append_right
        apply strStarts_append_right
        apply strStarts_append_right
        apply strStarts_append_right
        apply strStarts_append_right
        exact strStarts_rfl p
    · obtain ⟨h1, h2, r2, hr2, h3⟩ := ih hfurther f hf
      exact ⟨h1, h2, r2, List.mem_cons_of_mem r hr2, h3⟩

/-- Rule 7 is silent for kinds other than Role and ClusterRole. -/
theorem rbacIssues_not_role {p : String} {kind metadata spec : Yaml}
    (hk : pyInList kind [Yaml.str "Role", Yaml.str "ClusterRole"] = false) :
    rbacIssues p kind metadata spec = Except.ok [] := by
  unfold rbacIssues
  rw [if_neg (by rw [hk]; exact Bool.false_ne_true)]
  rfl

/-- Shape of the output of rule 7 for arbitrary objects. -/
theorem rbacIssues_shape {p : String} {kind metadata spec : Yaml}
    {out : List Finding} (h : rbacIssues p kind metadata spec = Except.ok out) :
    ∀ f ∈ out, f.severity = "High" ∧ strStarts f.message p ∧
      ∃ r, f.snippet = yamlDump r := by
  unfold rbacIssues at h
  by_cases hk : pyInList kind [Yaml.str "Role", Yaml.str "ClusterRole"] = true
  · rw [if_pos hk] at h
    obtain ⟨rules, hrules, h⟩ := exceptBind_ok.mp h
    obtain ⟨rs, hrs, h⟩ := exceptBind_ok.mp h
    intro f hf
    obtain ⟨h1, h2, r, _, h3⟩ := rbacRuleIssues_shape h f hf
    exact ⟨h1, h2, r, h3⟩
  · rw [if_neg hk] at h
    rw [← pureOk h]
    intro f hf
    simp at hf

/-- The output of rule 7 for a Role or ClusterRole, in closed form. -/
theorem rbacIssues_eq {p : String} {kind metadata spec mn rules : Yaml}
    {rs : List Yaml} {out : List Finding}
    (hk : pyInList kind [Yaml.str "Role", Yaml.str "ClusterRole"] = true)
    (hrules : pyGet spec "rules" (Yaml.list []) = Except.ok rules)
    (hrs : pyIter rules = Except.ok rs)
    (hmn : pyGet metadata "name" (Yaml.str "") = Except.ok mn)
    (h : rbacIssues p kind metadata spec = Except.ok out) :
    out = (rs.filter ruleHasStar).map (mkRbacFinding p kind mn) := by
  unfold rbacIssues at h
  rw [if_pos hk] at h
  obtain ⟨rules2, hrules2, h⟩ := exceptBind_ok.mp h
  rw [hrules] at hrules2
  injection hrules2 with e
  subst e
  obtain ⟨rs2, hrs2, h⟩ := exceptBind_ok.mp h
  rw [hrs] at hrs2
  injection hrs2 with e
  subst e
  exact rbacRuleIssues_eq hmn h

/-- Splitting one successful `check_config` run into its four rule segments
together with the intermediate values the code reads. -/
theorem check_config_decomp {obj : Yaml} {p : String} {fs : List Finding}
    (h : check_config obj p = Except.ok fs) :
    ∃ kind metadata spec containers cs ci ni ti ri,
      pyGet obj "kind" (Yaml.str "Unknown") = Except.ok kind ∧
      pyGet obj "metadata" (Yaml.map []) = Except.ok metadata ∧
      pyGet obj "spec" (Yaml.map []) = Except.ok spec ∧
      containersOf spec = Except.ok containers ∧
      pyIter containers = Except.ok cs ∧
      check_containers p kind metadata cs = Except.ok ci ∧
      serviceNamespaceIssues p kind metadata obj = Except.ok ni ∧
      serviceTypeIssues p kind metadata spec obj = Except.ok ti ∧
      rbacIssues p kind metadata spec = Except.ok ri ∧
      fs = ci ++ ni ++ ti ++ ri := by
  unfold check_config at h
  obtain ⟨kind, h1, h⟩ := exceptBind_ok.mp h
  obtain ⟨metadata, h2, h⟩ := exceptBind_ok.mp h
  obtain ⟨spec, h3, h⟩ := exceptBind_ok.mp h
  obtain ⟨containers, h4, h⟩ := exceptBind_ok.mp h
  obtain ⟨cs, h5, h⟩ := exceptBind_ok.mp h
  obtain ⟨ci, h6, h⟩ := exceptBind_ok.mp h
  obtain ⟨ni, h7, h⟩ := exceptBind_ok.mp h
  obtain ⟨ti, h8, h⟩ := exceptBind_ok.mp h
  obtain ⟨ri, h9, h⟩ := exceptBind_ok.mp h
  exact ⟨kind, metadata, spec, containers, cs, ci, ni, ti, ri,
    h1, h2, h3, h4, h5, h6, h7, h8, h9, (pureOk h).symm⟩

/-- Master invariant: every finding of a successful `check_config` run has
severity Low, Medium or High, a message starting with the source path, and a
non-empty snippet (the dump of some YAML value). -/
theorem check_config_findingOk {obj : Yaml} {p : String} {fs : List Finding}
    (h : check_config obj p = Except.ok fs) :
    ∀ f ∈ fs, (f.severity = "Low" ∨ f.severity = "Medium" ∨ f.severity = "High") ∧
      strStarts f.message p ∧ f.snippet ≠ "" := by
  obtain ⟨kind, metadata, spec, containers, cs, ci, ni, ti, ri,
    h1, h2, h3, h4, h5, h6, h7, h8, h9, hfs⟩ := check_config_decomp h
  subst hfs
  intro f hf
  rcases List.mem_append.mp hf with hf | hf
  · rcases List.mem_append.mp hf with hf | hf
    · rcases List.mem_append.mp hf with hf | hf
      · obtain ⟨⟨c, _, hsnip⟩, hpre, hdisj⟩ := check_containers_shape h6 f hf
        refine ⟨?_, hpre, hsnip ▸ yamlDump_ne_empty c⟩
        rcases hdisj with ⟨hs, _⟩ | ⟨hs, _⟩ | ⟨hs, _⟩ | ⟨hs, _⟩ <;> simp [hs]
      · rcases serviceNamespaceIssues_ok h7 with hni | ⟨mn, hni⟩ <;> subst hni
        · simp at hf
        · simp only [List.mem_singleton] at hf
          subst hf
          refine ⟨Or.inl rfl, ?_, yamlDump_ne_empty obj⟩
          apply strStarts_append_right
          apply strStarts_append_right
          apply strStarts_append_right
          exact strStarts_rfl p
    · rcases serviceTypeIssues_ok h8 with hti | ⟨_, t, mn, _, _, hti⟩ <;> subst hti
      · simp at hf
      · simp only [List.mem_singleton] at hf
        subst hf
        refine ⟨Or.inr (Or.inr rfl), ?_, yamlDump_ne_empty obj⟩
        apply strStarts_append_right
        apply strStarts_append_right
        apply strStarts_append_right
        apply strStarts_append_right
        apply strStarts_append_right
        exact strStarts_rfl p
  · obtain ⟨hs, hpre, r, hsnip⟩ := rbacIssues_shape h9 f hf
    exact ⟨Or.inr (Or.inr hs), hpre, hsnip ▸ yamlDump_ne_empty r⟩

/-- Every finding the document loop accumulates comes from some successful
`check_config` run on this path. -/
theorem scanDocs_mem {p : String} {docs : List Yaml} :
    ∀ f ∈ (scanDocs p docs).1,
      ∃ obj fs, check_config obj p = Except.ok fs ∧ f ∈ fs := by
  induction docs with
  | nil => intro f hf; simp [scanDocs] at hf
  | cons d rest ih =>
    intro f hf
    unfold scanDocs at hf
    by_cases hd : pyTruthy d = true
    · rw [if_pos hd] at hf
      cases hcc : check_config d p with
      | error e => rw [hcc] at hf; simp at hf
      | ok issues =>
        rw [hcc] at hf
        simp only [] at hf
        rcases List.mem_append.mp hf with hf | hf
        · exact ⟨d, issues, hcc, hf⟩
        · exact ih f hf
    · rw [if_neg hd] at hf
      exact ih f hf

/-- Every finding `scan_file` returns comes from a `check_config` run or is
the parse-error finding. -/
theorem scan_file_shape {p : String} {fp : FileParse} :
    ∀ f ∈ scan_file p fp,
      (∃ obj fs, check_config obj p = Except.ok fs ∧ f ∈ fs) ∨
        ∃ e, f = errFinding p e := by
  intro f hf
  unfold scan_file at hf
  cases h2 : (scanDocs p fp.docs).2 with
  | some e =>
    rw [h2] at hf
    rcases List.mem_append.mp hf with hf | hf
    · exact Or.inl (scanDocs_mem f hf)
    · simp only [List.mem_singleton] at hf
      exact Or.inr ⟨e, hf⟩
  | none =>
    rw [h2] at hf
    cases he : fp.err with
    | some e =>
      rw [he] at hf
      rcases List.mem_append.mp hf with hf | hf
      · exact Or.inl (scanDocs_mem f hf)
      · simp only [List.mem_singleton] at hf
        exact Or.inr ⟨e, hf⟩
    | none =>
      rw [he] at hf
      exact Or.inl (scanDocs_mem f hf)

theorem lookup_some_any {m : List (String × Yaml)} {k : String} {v : Yaml}
    (h : lookupStr m k = some v) :
    (m.any fun kv => pyEq (Yaml.str k) (Yaml.str kv.1)) = true := by
  induction m with
  | nil => simp [lookupStr] at h
  | cons kv rest ih =>
    obtain ⟨k2, v2⟩ := kv
    by_cases hk : k2 = k
    · simp [pyEq, List.any_cons, hk]
    · rw [lookupStr, if_neg (by simp [hk])] at h
      simp only [List.any_cons, ih h, Bool.or_true]

theorem lookup_none_any {m : List (String × Yaml)} {k : String}
    (h : lookupStr m k = none) :
    (m.any fun kv => pyEq (Yaml.str k) (Yaml.str kv.1)) = false := by
  induction m with
  | nil => simp
  | cons kv rest ih =>
    obtain ⟨k2, v2⟩ := kv
    by_cases hk : k2 = k
    · rw [lookupStr, if_pos (by simp [hk])] at h
      simp at h
    · rw [lookupStr, if_neg (by simp [hk])] at h
      show (pyEq (Yaml.str k) (Yaml.str k2) ||
        (rest.any fun kv => pyEq (Yaml.str k) (Yaml.str kv.1))) = false
      rw [ih h, Bool.or_false]
      show (k == k2) = false
      exact beq_eq_false_iff_ne.mpr (fun e => hk e.symm)

/-! ### Claim theorems -/

/-- C3: a file whose parse fails outright (no document produced) is
represented by the single Low finding
`"Error parsing {path}: {error}"` with an empty snippet, and a directory
scan continues with the remaining files after it. -/
theorem scan_file_whole_file_failure (p e : String) (rest : List FileEntry)
    (hyaml : isYamlFile p = true) :
    scan_file p (FileParse.mk [] (some e)) =
      [Finding.mk "Low" ("Error parsing " ++ p ++ ": " ++ e) ""] ∧
    scan_directory (FileEntry.mk p (FileParse.mk [] (some e)) :: rest) =
      Finding.mk "Low" ("Error parsing " ++ p ++ ": " ++ e) "" ::
        scan_directory rest := by
  constructor
  · rfl
  · show (if isYamlFile p then _ else _) ++ _ = _
    rw [if_pos hyaml]
    rfl

/-- Witness for C3 at a concrete path and error. -/
theorem scan_file_whole_file_failure_witness :
    scan_file "bad.yaml" (FileParse.mk [] (some "boom")) =
      [Finding.mk "Low" "Error parsing bad.yaml: boom" ""] ∧
    scan_directory [FileEntry.mk "bad.yaml" (FileParse.mk [] (some "boom"))] =
      [Finding.mk "Low" "Error parsing bad.yaml: boom" ""] := by
  have h := scan_file_whole_file_failure "bad.yaml" "boom" [] (by decide)
  exact ⟨h.1, h.2⟩

/-- C4: a directory scan is exactly the concatenation, in traversal order,
of the per-file scans of the files whose names end in `.yaml` or `.yml`;
other files contribute nothing. -/
theorem run_scan_dir_concat (entries : List FileEntry) :
    run_scan (PathInput.dir entries) =
      ((entries.filter fun fe => isYamlFile fe.path).map
        fun fe => scan_file fe.path fe.parse).flatten := by
  show scan_directory entries = _
  induction entries with
  | nil => rfl
  | cons fe rest ih =>
    rw [scan_directory, ih, List.filter_cons]
    by_cases hy : isYamlFile fe.path = true
    · rw [if_pos hy, if_pos hy, List.map_cons, List.flatten_cons]
    · rw [if_neg hy, if_neg (by simpa using hy)]
      simp

/-- C8: the container list comes from `spec.containers` when that key is
present; only otherwise from `spec.template.spec.containers`; the two
locations are never merged. -/
theorem containersOf_first_match (sm tm tsm : List (String × Yaml)) (v : Yaml) :
    (lookupStr sm "containers" = some v →
      containersOf (Yaml.map sm) = Except.ok v) ∧
    (lookupStr sm "containers" = none →
      lookupStr sm "template" = some (Yaml.map tm) →
      lookupStr tm "spec" = some (Yaml.map tsm) →
      containersOf (Yaml.map sm) =
        Except.ok ((lookupStr tsm "containers").getD (Yaml.list []))) := by
  constructor
  · intro h
    unfold containersOf
    show (Except.ok (sm.any fun kv => pyEq (Yaml.str "containers") (Yaml.str kv.1)) >>=
      fun hasC => _) = _
    rw [lookup_some_any h, exceptBind_ok_reduce]
    rw [if_pos rfl]
    show pySub (Yaml.map sm) "containers" = _
    rw [pySub, h]
  · intro h ht hs
    unfold containersOf
    show (Except.ok (sm.any fun kv => pyEq (Yaml.str "containers") (Yaml.str kv.1)) >>=
      fun hasC => _) = _
    rw [lookup_none_any h, exceptBind_ok_reduce]
    rw [if_neg Bool.false_ne_true]
    show (Except.ok (sm.any fun kv => pyEq (Yaml.str "template") (Yaml.str kv.1)) >>=
      fun hasT => _) = _
    rw [lookup_some_any ht, exceptBind_ok_reduce]
    rw [if_pos rfl]
    show (pySub (Yaml.map sm) "template" >>= fun tmpl => _) = _
    rw [pySub, ht, exceptBind_ok_reduce]
    show (Except.ok (tm.any fun kv => pyEq (Yaml.str "spec") (Yaml.str kv.1)) >>=
      fun hasS => _) = _
    rw [lookup_some_any hs, exceptBind_ok_reduce]
    rw [if_pos rfl]
    show (pySub (Yaml.map tm) "spec" >>= fun tsp => _) = _
    rw [pySub, hs, exceptBind_ok_reduce]
    rfl

/-- Witness for C8: both locations at concrete inputs, and precedence of
`spec.containers` over `spec.template.spec.containers`. -/
theorem containersOf_first_match_witness :
    containersOf (Yaml.map [("containers", Yaml.list [Yaml.str "a"]),
      ("template", Yaml.map [("spec",
        Yaml.map [("containers", Yaml.list [Yaml.str "b"])])])]) =
      Except.ok (Yaml.list [Yaml.str "a"]) ∧
    containersOf (Yaml.map [("template", Yaml.map [("spec",
        Yaml.map [("containers", Yaml.list [Yaml.str "b"])])])]) =
      Except.ok (Yaml.list [Yaml.str "b"]) := by
  constructor
  · exact (containersOf_first_match _ [] [] _).1 rfl
  · exact (containersOf_first_match _
      [("spec", Yaml.map [("containers", Yaml.list [Yaml.str "b"])])]
      [("containers", Yaml.list [Yaml.str "b"])] Yaml.null).2 rfl rfl rfl

theorem condFinding_ok_true {md : Yaml} {mk : Yaml → Finding}
    {out : List Finding} (h : condFinding true md mk = Except.ok out) :
    ∃ mn, pyGet md "name" (Yaml.str "") = Except.ok mn ∧ out = [mk mn] := by
  unfold condFinding at h
  rw [if_pos rfl] at h
  cases hg : pyGet md "name" (Yaml.str "") with
  | error e => rw [hg] at h; simp [Bind.bind, Except.bind] at h
  | ok mn =>
    rw [hg] at h
    rw [exceptBind_ok_reduce] at h
    exact ⟨mn, rfl, (pureOk h).symm⟩

/-- The example container of spec §8: nginx:latest, privileged, no
resources, no `runAsUser`. -/
def exampleContainer : Yaml :=
  Yaml.map [("name", Yaml.str "nginx"), ("image", Yaml.str "nginx:latest"),
    ("securityContext", Yaml.map [("privileged", Yaml.bool true)])]

/-- The example Pod of spec §8. -/
def examplePod : Yaml :=
  Yaml.map [("kind", Yaml.str "Pod"),
    ("spec", Yaml.map [("containers", Yaml.list [exampleContainer])])]

/-- A container with complete resources, a pinned image tag, and no
`securityContext` at all. -/
def rootlessContainer : Yaml :=
  Yaml.map [("name", Yaml.str "web"), ("image", Yaml.str "nginx:1.25"),
    ("resources", Yaml.map [("limits", Yaml.map [("cpu", Yaml.str "1")]),
      ("requests", Yaml.map [("cpu", Yaml.str "1")])])]

/-- A Pod holding only `rootlessContainer`. -/
def rootlessPod : Yaml :=
  Yaml.map [("kind", Yaml.str "Pod"),
    ("metadata", Yaml.map [("name", Yaml.str "web")]),
    ("spec", Yaml.map [("containers", Yaml.list [rootlessContainer])])]

/-- C1 counterexample: a container that omits `securityContext` (hence
`runAsUser`) entirely still gets the High "runs as root user" finding,
because the code reads `securityContext.get("runAsUser", 0)` and flags
value 0 — the default applies to absent fields. -/
theorem check_config_rootless_flagged :
    check_config rootlessPod "pod.yaml" = Except.ok
      [Finding.mk "High" "pod.yaml [Pod/web] Container \x27web\x27 runs as root user"
        (yamlDump rootlessContainer)] := by
  rfl

/-- C1 amended: for every container evaluated by the per-container rule
pass, the High "runs as root user" finding is emitted if and only if
`securityContext.runAsUser` read with default 0 is Python-equal to 0 —
that is, also when `runAsUser` (or the whole `securityContext`) is absent. -/
theorem root_user_finding_iff (p : String) (kind metadata c : Yaml)
    (secm : List (String × Yaml)) (fs : List Finding)
    (hsec : pyGet c "securityContext" (Yaml.map []) = Except.ok (Yaml.map secm))
    (hok : check_container p kind metadata c = Except.ok fs) :
    (∃ f ∈ fs, f.severity = "High" ∧ strEnds f.message "\x27 runs as root user") ↔
      pyEq ((lookupStr secm "runAsUser").getD (Yaml.int 0)) (Yaml.int 0) = true := by
  unfold check_container at hok
  obtain ⟨name, hname, hok⟩ := exceptBind_ok.mp hok
  obtain ⟨resources, hres2, hok⟩ := exceptBind_ok.mp hok
  obtain ⟨missing, hmiss, hok⟩ := exceptBind_ok.mp hok
  obtain ⟨f1, hf1, hok⟩ := exceptBind_ok.mp hok
  obtain ⟨security, hsecv, hok⟩ := exceptBind_ok.mp hok
  obtain ⟨priv, hpriv, hok⟩ := exceptBind_ok.mp hok
  obtain ⟨f2, hf2, hok⟩ := exceptBind_ok.mp hok
  obtain ⟨rau, hrau, hok⟩ := exceptBind_ok.mp hok
  obtain ⟨f3, hf3, hok⟩ := exceptBind_ok.mp hok
  obtain ⟨image, himg2, hok⟩ := exceptBind_ok.mp hok
  obtain ⟨tag, htag, hok⟩ := exceptBind_ok.mp hok
  obtain ⟨f4, hf4, hok⟩ := exceptBind_ok.mp hok
  have hfs := pureOk hok
  rw [hsec] at hsecv
  injection hsecv with hsecv
  subst hsecv
  simp only [pyGet] at hrau
  injection hrau with hrau
  constructor
  · rintro ⟨f, hf, hsev, hsuf⟩
    rw [← hfs] at hf
    simp only [List.mem_append] at hf
    rcases hf with ((hf | hf) | hf) | hf
    · rcases condFinding_ok hf1 with h1 | ⟨mn, _, _, h1⟩ <;> subst h1
      · simp at hf
      · simp only [List.mem_singleton] at hf
        subst hf
        simp at hsev
    · rcases condFinding_ok hf2 with h2 | ⟨mn, _, _, h2⟩ <;> subst h2
      · simp at hf
      · simp only [List.mem_singleton] at hf
        subst hf
        exact (strEnds_incompatible
          (fmtContainerMsg_suffix p kind mn name "runs as privileged") hsuf
          (by decide) (by decide)).elim
    · rcases condFinding_ok hf3 with h3 | ⟨mn, hb, _, h3⟩
      · subst h3; simp at hf
      · rw [hrau]
        exact hb
    · rcases condFinding_ok hf4 with h4 | ⟨mn, _, _, h4⟩ <;> subst h4
      · simp at hf
      · simp only [List.mem_singleton] at hf
        subst hf
        simp at hsev
  · intro hg
    rw [hrau] at hg
    rw [hg] at hf3
    obtain ⟨mn, hmn, h3⟩ := condFinding_ok_true hf3
    refine ⟨Finding.mk "High"
      (fmtContainerMsg p kind mn name "runs as root user") (yamlDump c), ?_, rfl,
      fmtContainerMsg_suffix p kind mn name "runs as root user"⟩
    rw [← hfs, h3]
    simp

/-- Witness for C1 at the concrete securityContext-free container. -/
theorem root_user_finding_iff_witness :
    ∃ f ∈ [Finding.mk "High"
        "pod.yaml [Pod/] Container \x27web\x27 runs as root user"
        (yamlDump rootlessContainer)],
      f.severity = "High" ∧ strEnds f.message "\x27 runs as root user" :=
  (root_user_finding_iff "pod.yaml" (Yaml.str "Pod") (Yaml.map [])
    rootlessContainer [] _ rfl rfl).mpr (by decide)

/-- C2 counterexample: the example Pod of the spec produces 4 findings, not 3 —
the root-user rule also fires because `runAsUser` is absent. -/
theorem check_config_example_pod_not_three :
    (check_config examplePod "pod.yaml").map List.length = Except.ok 4 ∧
    (check_config examplePod "pod.yaml").map List.length ≠ Except.ok 3 := by
  constructor
  · rfl
  · intro h
    rw [show (check_config examplePod "pod.yaml").map List.length = Except.ok 4
      from rfl] at h
    injection h with h2
    exact absurd h2 (by decide)

/-- C2 amended: the example Pod yields exactly 4 findings — missing
resources (Medium), privileged (High), root user (High), latest tag (Low) —
in that order. -/
theorem check_config_example_pod :
    check_config examplePod "pod.yaml" = Except.ok
      [Finding.mk "Medium"
        "pod.yaml [Pod/] Container \x27nginx\x27 missing resource requests/limits"
        (yamlDump exampleContainer),
       Finding.mk "High"
        "pod.yaml [Pod/] Container \x27nginx\x27 runs as privileged"
        (yamlDump exampleContainer),
       Finding.mk "High"
        "pod.yaml [Pod/] Container \x27nginx\x27 runs as root user"
        (yamlDump exampleContainer),
       Finding.mk "Low"
        "pod.yaml [Pod/] Container \x27nginx\x27 uses \x27latest\x27 image tag"
        (yamlDump exampleContainer)] := rfl

/-- C7: the Low "uses latest image tag" finding is emitted for a container
exactly when its image string contains `:latest` or ends in a bare `:`. -/
theorem latest_tag_finding_iff (p : String) (kind metadata c : Yaml)
    (image : String) (fs : List Finding)
    (himg : pyGet c "image" (Yaml.str "") = Except.ok (Yaml.str image))
    (hok : check_container p kind metadata c = Except.ok fs) :
    (∃ f ∈ fs, f.severity = "Low" ∧
        strEnds f.message "\x27 uses \x27latest\x27 image tag") ↔
      (listContainsSub ":latest".data image.data ||
        ":".data.isSuffixOf image.data) = true := by
  unfold check_container at hok
  obtain ⟨name, hname, hok⟩ := exceptBind_ok.mp hok
  obtain ⟨resources, hres2, hok⟩ := exceptBind_ok.mp hok
  obtain ⟨missing, hmiss, hok⟩ := exceptBind_ok.mp hok
  obtain ⟨f1, hf1, hok⟩ := exceptBind_ok.mp hok
  obtain ⟨security, hsecv, hok⟩ := exceptBind_ok.mp hok
  obtain ⟨priv, hpriv, hok⟩ := exceptBind_ok.mp hok
  obtain ⟨f2, hf2, hok⟩ := exceptBind_ok.mp hok
  obtain ⟨rau, hrau, hok⟩ := exceptBind_ok.mp hok
  obtain ⟨f3, hf3, hok⟩ := exceptBind_ok.mp hok
  obtain ⟨image0, himg2, hok⟩ := exceptBind_ok.mp hok
  obtain ⟨tag, htag, hok⟩ := exceptBind_ok.mp hok
  obtain ⟨f4, hf4, hok⟩ := exceptBind_ok.mp hok
  have hfs := pureOk hok
  rw [himg] at himg2
  injection himg2 with himg2
  subst himg2
  have htagv : tag = (listContainsSub ":latest".data image.data ||
      ":".data.isSuffixOf image.data) := by
    obtain ⟨b4, hb4, htag⟩ := exceptBind_ok.mp htag
    simp only [pyIn] at hb4
    injection hb4 with hb4
    subst hb4
    rcases Bool.eq_false_or_eq_true (listContainsSub ":latest".data image.data)
      with hb | hb
    · rw [hb, if_pos rfl] at htag
      rw [hb, ← pureOk htag]
      simp
    · rw [hb, if_neg Bool.false_ne_true] at htag
      simp only [pyEndswith] at htag
      injection htag with htag
      rw [hb, ← htag]
      simp
  constructor
  · rintro ⟨f, hf, hsev, hsuf⟩
    rw [← hfs] at hf
    simp only [List.mem_append] at hf
    rcases hf with ((hf | hf) | hf) | hf
    · rcases condFinding_ok hf1 with h1 | ⟨mn, _, _, h1⟩ <;> subst h1
      · simp at hf
      · simp only [List.mem_singleton] at hf
        subst hf
        simp at hsev
    · rcases condFinding_ok hf2 with h2 | ⟨mn, _, _, h2⟩ <;> subst h2
      · simp at hf
      · simp only [List.mem_singleton] at hf
        subst hf
        simp at hsev
    · rcases condFinding_ok hf3 with h3 | ⟨mn, _, _, h3⟩ <;> subst h3
      · simp at hf
      · simp only [List.mem_singleton] at hf
        subst hf
        simp at hsev
    · rcases condFinding_ok hf4 with h4 | ⟨mn, hb, _, h4⟩
      · subst h4; simp at hf
      · rw [← htagv]
        exact hb
  · intro hg
    rw [← htagv] at hg
    rw [hg] at hf4
    obtain ⟨mn, hmn, h4⟩ := condFinding_ok_true hf4
    refine ⟨Finding.mk "Low"
      (fmtContainerMsg p kind mn name "uses \x27latest\x27 image tag")
      (yamlDump c), ?_, rfl,
      fmtContainerMsg_suffix p kind mn name "uses \x27latest\x27 image tag"⟩
    rw [← hfs, h4]
    simp

/-- Witness for C7 at the concrete nginx:latest container. -/
theorem latest_tag_finding_iff_witness :
    ∃ f ∈ [Finding.mk "Medium"
        "pod.yaml [Pod/] Container \x27nginx\x27 missing resource requests/limits"
        (yamlDump exampleContainer),
       Finding.mk "High"
        "pod.yaml [Pod/] Container \x27nginx\x27 runs as privileged"
        (yamlDump exampleContainer),
       Finding.mk "High"
        "pod.yaml [Pod/] Container \x27nginx\x27 runs as root user"
        (yamlDump exampleContainer),
       Finding.mk "Low"
        "pod.yaml [Pod/] Container \x27nginx\x27 uses \x27latest\x27 image tag"
        (yamlDump exampleContainer)],
      f.severity = "Low" ∧ strEnds f.message "\x27 uses \x27latest\x27 image tag" :=
  (latest_tag_finding_iff "pod.yaml" (Yaml.str "Pod") (Yaml.map [])
    exampleContainer "nginx:latest" _ rfl rfl).mpr (by decide)

/-- C5: for an object whose kind is "Service", a High external-exposure
finding is emitted iff `spec.type`, defaulting to ClusterIP when absent,
equals LoadBalancer or NodePort. -/
theorem service_exposure_iff (obj : Yaml) (p : String)
    (om sm : List (String × Yaml)) (t : Yaml) (fs : List Finding)
    (hobj : obj = Yaml.map om)
    (hkind : (lookupStr om "kind").getD (Yaml.str "Unknown") = Yaml.str "Service")
    (hspec : (lookupStr om "spec").getD (Yaml.map []) = Yaml.map sm)
    (ht : (lookupStr sm "type").getD (Yaml.str "ClusterIP") = t)
    (hok : check_config obj p = Except.ok fs) :
    (∃ f ∈ fs, f.severity = "High" ∧
        strEnds f.message ", which may expose workloads externally") ↔
      pyInList t [Yaml.str "LoadBalancer", Yaml.str "NodePort"] = true := by
  subst hobj
  obtain ⟨kind, metadata, spec, containers, cs, ci, ni, ti, ri,
    h1, h2, h3, h4, h5, h6, h7, h8, h9, hfs⟩ := check_config_decomp hok
  simp only [pyGet] at h1
  injection h1 with h1
  rw [hkind] at h1
  subst h1
  simp only [pyGet] at h3
  injection h3 with h3
  rw [hspec] at h3
  subst h3
  rw [rbacIssues_not_role (by decide)] at h9
  injection h9 with h9
  subst h9
  subst hfs
  constructor
  · rintro ⟨f, hf, hsev, hsuf⟩
    simp only [List.mem_append] at hf
    rcases hf with ((hf | hf) | hf) | hf
    · obtain ⟨_, _, hdisj⟩ := check_containers_shape h6 f hf
      rcases hdisj with ⟨_, hs⟩ | ⟨_, hs⟩ | ⟨_, hs⟩ | ⟨_, hs⟩ <;>
        exact (strEnds_incompatible hs hsuf (by decide) (by decide)).elim
    · rcases serviceNamespaceIssues_ok h7 with hni | ⟨mn, hni⟩ <;> subst hni
      · simp at hf
      · simp only [List.mem_singleton] at hf
        subst hf
        simp at hsev
    · rcases serviceTypeIssues_ok h8 with hti | ⟨_, t2, mn, ht2, hg2, hti⟩
      · subst hti; simp at hf
      · simp only [pyGet] at ht2
        injection ht2 with ht2
        rw [ht] at ht2
        subst ht2
        exact hg2
    · simp at hf
  · intro hg
    unfold serviceTypeIssues at h8
    rw [if_pos (by decide)] at h8
    rw [show pyGet (Yaml.map sm) "type" (Yaml.str "ClusterIP") = Except.ok t
      from by simp only [pyGet]; rw [ht]] at h8
    rw [exceptBind_ok_reduce] at h8
    rw [if_pos hg] at h8
    obtain ⟨mn, hmn, h8⟩ := exceptBind_ok.mp h8
    have hti := pureOk h8
    refine ⟨Finding.mk "High"
      (p ++ " [Service/" ++ pyStr mn ++ "] uses " ++ pyStr t ++
        ", which may expose workloads externally")
      (yamlDump (Yaml.map om)), ?_, rfl, strEnds_append _ _⟩
    rw [← hti]
    simp

/-- Field list of the example LoadBalancer Service. -/
def serviceFields : List (String × Yaml) :=
  [("kind", Yaml.str "Service"),
   ("metadata", Yaml.map [("name", Yaml.str "svc")]),
   ("spec", Yaml.map [("type", Yaml.str "LoadBalancer")])]

/-- A Service of type LoadBalancer. -/
def exampleService : Yaml :=
  Yaml.map serviceFields

/-- Witness for C5 at the concrete LoadBalancer Service. -/
theorem service_exposure_iff_witness :
    ∃ f ∈ [Finding.mk "Low"
        "svc.yaml [Service/svc] has no namespace specified"
        (yamlDump exampleService),
       Finding.mk "High"
        "svc.yaml [Service/svc] uses LoadBalancer, which may expose workloads externally"
        (yamlDump exampleService)],
      f.severity = "High" ∧
        strEnds f.message ", which may expose workloads externally" :=
  (service_exposure_iff exampleService "svc.yaml" serviceFields
    [("type", Yaml.str "LoadBalancer")] (Yaml.str "LoadBalancer") _
    rfl rfl rfl rfl rfl).mpr (by decide)

/-- C6: for a Role or ClusterRole, the RBAC findings are exactly one High
finding per `spec.rules` entry containing `"*"` in its verbs or resources,
appearing as the final segment of the scan findings; the snippet of each
such finding is the dump of that single rule entry, not of the whole object. -/
theorem rbac_star_findings (obj : Yaml) (p : String)
    (kind metadata spec rules mn : Yaml) (rs : List Yaml) (fs : List Finding)
    (hkind : pyGet obj "kind" (Yaml.str "Unknown") = Except.ok kind)
    (hrole : pyInList kind [Yaml.str "Role", Yaml.str "ClusterRole"] = true)
    (hmd : pyGet obj "metadata" (Yaml.map []) = Except.ok metadata)
    (hmn : pyGet metadata "name" (Yaml.str "") = Except.ok mn)
    (hspec : pyGet obj "spec" (Yaml.map []) = Except.ok spec)
    (hrules : pyGet spec "rules" (Yaml.list []) = Except.ok rules)
    (hrs : pyIter rules = Except.ok rs)
    (hok : check_config obj p = Except.ok fs) :
    ((rs.filter ruleHasStar).map (mkRbacFinding p kind mn)) <:+ fs ∧
      ∀ r, (mkRbacFinding p kind mn r).severity = "High" ∧
        (mkRbacFinding p kind mn r).snippet = yamlDump r := by
  obtain ⟨kind2, metadata2, spec2, containers, cs, ci, ni, ti, ri,
    h1, h2, h3, h4, h5, h6, h7, h8, h9, hfs⟩ := check_config_decomp hok
  rw [hkind] at h1
  injection h1 with h1
  subst h1
  rw [hmd] at h2
  injection h2 with h2
  subst h2
  rw [hspec] at h3
  injection h3 with h3
  subst h3
  have hri := rbacIssues_eq hrole hrules hrs hmn h9
  subst hri
  subst hfs
  exact ⟨List.suffix_append _ _, fun r => ⟨rfl, rfl⟩⟩

/-- An RBAC rule entry with a wildcard verb. -/
def ruleStar : Yaml :=
  Yaml.map [("verbs", Yaml.list [Yaml.str "*"]),
    ("resources", Yaml.list [Yaml.str "pods"])]

/-- An RBAC rule entry with no wildcard. -/
def rulePlain : Yaml :=
  Yaml.map [("verbs", Yaml.list [Yaml.str "get"]),
    ("resources", Yaml.list [Yaml.str "pods"])]

/-- A Role holding one wildcard rule and one plain rule. -/
def exampleRole : Yaml :=
  Yaml.map [("kind", Yaml.str "Role"),
    ("metadata", Yaml.map [("name", Yaml.str "r")]),
    ("spec", Yaml.map [("rules", Yaml.list [ruleStar, rulePlain])])]

/-- Witness for C6 at the concrete Role. -/
theorem rbac_star_findings_witness :
    (([ruleStar, rulePlain].filter ruleHasStar).map
      (mkRbacFinding "role.yaml" (Yaml.str "Role") (Yaml.str "r"))) <:+
      [mkRbacFinding "role.yaml" (Yaml.str "Role") (Yaml.str "r") ruleStar] ∧
    ∀ r, (mkRbacFinding "role.yaml" (Yaml.str "Role") (Yaml.str "r") r).severity =
        "High" ∧
      (mkRbacFinding "role.yaml" (Yaml.str "Role") (Yaml.str "r") r).snippet =
        yamlDump r :=
  rbac_star_findings exampleRole "role.yaml" (Yaml.str "Role")
    (Yaml.map [("name", Yaml.str "r")]) (Yaml.map [("rules", Yaml.list [ruleStar, rulePlain])])
    (Yaml.list [ruleStar, rulePlain]) (Yaml.str "r") [ruleStar, rulePlain] _
    rfl (by decide) rfl rfl rfl rfl rfl rfl

/-- C9: every finding produced by `check_config` or `scan_file` has severity
Low, Medium or High; the Critical level is never emitted by any rule or
error path. -/
theorem severity_closed (obj : Yaml) (p : String) (fs : List Finding)
    (f : Finding) (fp : FileParse) :
    (check_config obj p = Except.ok fs → f ∈ fs →
      (f.severity = "Low" ∨ f.severity = "Medium" ∨ f.severity = "High") ∧
        f.severity ≠ "Critical") ∧
    (f ∈ scan_file p fp →
      (f.severity = "Low" ∨ f.severity = "Medium" ∨ f.severity = "High") ∧
        f.severity ≠ "Critical") := by
  constructor
  · intro h hf
    have hs := (check_config_findingOk h f hf).1
    refine ⟨hs, ?_⟩
    rcases hs with hs | hs | hs <;> rw [hs] <;> decide
  · intro hf
    rcases scan_file_shape f hf with ⟨obj2, fs2, h, hf2⟩ | ⟨e, he⟩
    · have hs := (check_config_findingOk h f hf2).1
      refine ⟨hs, ?_⟩
      rcases hs with hs | hs | hs <;> rw [hs] <;> decide
    · subst he
      exact ⟨Or.inl rfl, show ("Low" : String) ≠ "Critical" by decide⟩

/-- Witness for C9 at a concrete parse failure. -/
theorem severity_closed_witness :
    ((Finding.mk "Low" "Error parsing x.yaml: e" "").severity = "Low" ∨
      (Finding.mk "Low" "Error parsing x.yaml: e" "").severity = "Medium" ∨
      (Finding.mk "Low" "Error parsing x.yaml: e" "").severity = "High") ∧
    (Finding.mk "Low" "Error parsing x.yaml: e" "").severity ≠ "Critical" :=
  (severity_closed Yaml.null "x.yaml" []
    (Finding.mk "Low" "Error parsing x.yaml: e" "")
    (FileParse.mk [] (some "e"))).2 (by decide)

/-- C10: the message of every `check_config` finding starts with the source
path and its snippet is non-empty; a finding with an empty snippet can only be
the parse-error finding of `scan_file`, whose message starts with
`"Error parsing {path}: "`. -/
theorem message_path_snippet (obj : Yaml) (p : String) (fs : List Finding)
    (f : Finding) (fp : FileParse) :
    (check_config obj p = Except.ok fs → f ∈ fs →
      strStarts f.message p ∧ f.snippet ≠ "") ∧
    (f ∈ scan_file p fp → f.snippet = "" →
      strStarts f.message ("Error parsing " ++ p ++ ": ")) := by
  constructor
  · intro h hf
    exact ⟨(check_config_findingOk h f hf).2.1, (check_config_findingOk h f hf).2.2⟩
  · intro hf hempty
    rcases scan_file_shape f hf with ⟨obj2, fs2, h, hf2⟩ | ⟨e, he⟩
    · exact absurd hempty (check_config_findingOk h f hf2).2.2
    · subst he
      exact strStarts_append_right _ (strStarts_rfl _)

/-- Witness for C10: the path prefix and non-empty snippet of a concrete
rule finding, and the prefix of a concrete parse-error finding. -/
theorem message_path_snippet_witness :
    (strStarts
        "pod.yaml [Pod/] Container \x27nginx\x27 missing resource requests/limits"
        "pod.yaml" ∧
      yamlDump exampleContainer ≠ "") ∧
    strStarts "Error parsing x.yaml: e" "Error parsing x.yaml: " :=
  ⟨(message_path_snippet examplePod "pod.yaml"
      [Finding.mk "Medium"
        "pod.yaml [Pod/] Container \x27nginx\x27 missing resource requests/limits"
        (yamlDump exampleContainer),
       Finding.mk "High"
        "pod.yaml [Pod/] Container \x27nginx\x27 runs as privileged"
        (yamlDump exampleContainer),
       Finding.mk "High"
        "pod.yaml [Pod/] Container \x27nginx\x27 runs as root user"
        (yamlDump exampleContainer),
       Finding.mk "Low"
        "pod.yaml [Pod/] Container \x27nginx\x27 uses \x27latest\x27 image tag"
        (yamlDump exampleContainer)]
      (Finding.mk "Medium"
        "pod.yaml [Pod/] Container \x27nginx\x27 missing resource requests/limits"
        (yamlDump exampleContainer))
      (FileParse.mk [] none)).1 rfl (by decide),
   (message_path_snippet Yaml.null "x.yaml" []
      (Finding.mk "Low" "Error parsing x.yaml: e" "")
      (FileParse.mk [] (some "e"))).2 (by decide) rfl⟩
